import Mathlib

/-!
Verification of the A-Task Chrome extension's orchestration logic.

This file gives a shallow embedding, in Lean, of the parts of the source
relevant to the checked claims:

- src/utils/task-parser.ts        (parseTaskSteps)
- src/storage/task-storage.ts     (TaskStorage.updateTask, getTask,
                                   getNextPendingTask, updateStepStatus)
- src/background.ts               (handleStartTask, handleStopTask,
                                   executeTask, executeNextTask,
                                   handleNewTaskAdded, handleTaskFailure)
- src/core/task-executor.ts       (TaskExecutor.executeMultiStep, executeStep)
- src/adapters/chatgpt-adapter.ts (ChatGPTAdapter.checkStatus)
- src/adapters/gemini-adapter.ts  (GeminiAdapter.checkStatus,
                                   checkCompletionAfterStable)
- src/content.ts                  (handleCheckStatus)

Strings manipulated by the parser are modelled as List Char, with JS
String.prototype.split / trim / includes implemented explicitly.
Asynchronous effects (DOM reads, message sends, timers) are modelled as
explicit observation records and returned actions; Date.now() is passed
as an explicit `now : Nat` argument.
-/

namespace ATask

/-- Task status enum from src/types/task.ts, shared by tasks and steps. -/
inductive TaskStatus where
  | PENDING
  | RUNNING
  | COMPLETED
  | FAILED
deriving DecidableEq, Repr

/-! ## Step parser (src/utils/task-parser.ts) -/

/-- The literal step delimiter STEP_SEPARATOR, eight hyphen-minus characters. -/
def stepSeparator : List Char := "--------".toList

/-- JS String.prototype.includes for a literal search string, on List Char:
true iff the separator occurs as a contiguous sublist. -/
def listIncludes (sep : List Char) : List Char → Bool
  | [] => sep.isPrefixOf ([] : List Char)
  | c :: cs => sep.isPrefixOf (c :: cs) || listIncludes sep cs

/-- Recursion core of the split: structural recursion on a fuel counter so
that the definition evaluates by kernel reduction.  Each split step consumes
at least one character, so any fuel at least the input length gives the
fuel-free behaviour (the fuel-exhausted branch is unreachable then).  When
the separator is a prefix we emit an empty segment and skip all 8 separator
characters (the matched head plus 7 more from the tail). -/
def splitOnSeparatorAux : Nat → List Char → List (List Char)
  | _, [] => [[]]
  | 0, l => [l]
  | fuel + 1, c :: cs =>
    if stepSeparator.isPrefixOf (c :: cs) then
      [] :: splitOnSeparatorAux fuel (cs.drop 7)
    else
      match splitOnSeparatorAux fuel cs with
      | [] => [[c]]
      | t :: ts => (c :: t) :: ts

/-- JS String.prototype.split on the literal 8-character stepSeparator:
repeatedly splits at the leftmost occurrence. -/
def splitOnSeparator (s : List Char) : List (List Char) :=
  splitOnSeparatorAux s.length s

/-- JS String.prototype.trim on List Char: drop whitespace at both ends. -/
def trimList (s : List Char) : List Char :=
  ((s.dropWhile Char.isWhitespace).reverse.dropWhile Char.isWhitespace).reverse

/-- A step record (TaskStep in src/types/task.ts): index, content, status,
with the optional bookkeeping fields absent when not yet set. -/
structure TaskStep where
  index : Nat
  content : List Char
  status : TaskStatus
  startedAt : Option Nat := none
  completedAt : Option Nat := none
  error : Option String := none
deriving DecidableEq, Repr

/-- parseTaskSteps from src/utils/task-parser.ts: return none when the
separator does not occur; otherwise split, trim each part, drop empty
parts, number the survivors, and return none when fewer than 2 remain. -/
def parseTaskSteps (content : List Char) : Option (List TaskStep) :=
  if listIncludes stepSeparator content = false then
    none
  else
    let parts := splitOnSeparator content
    let segs := (parts.map trimList).filter (fun p => 0 < p.length)
    let steps := segs.enum.map
      (fun p => { index := p.1, content := p.2, status := TaskStatus.PENDING : TaskStep })
    if steps.length < 2 then none else some steps

/-- Modelled from the spec words of the step-separator contract (section 6):
split on the delimiter, trim each segment, discard zero-length segments,
and yield a step list exactly when at least 2 non-empty segments remain.
Used only to compare against parseTaskSteps, which is the source embedding. -/
def specStepContract (content : List Char) : Option (List TaskStep) :=
  let segs := ((splitOnSeparator content).map trimList).filter (fun p => 0 < p.length)
  if 2 ≤ segs.length then
    some (segs.enum.map
      (fun p => { index := p.1, content := p.2, status := TaskStatus.PENDING : TaskStep }))
  else
    none

/-! ## Task store (src/storage/task-storage.ts) and data model (src/types/task.ts) -/

/-- Task record from src/types/task.ts (with the multi-step fields of the
storage layer: steps and currentStepIndex). -/
structure Task where
  id : String
  prompt : String
  status : TaskStatus
  createdAt : Nat
  startedAt : Option Nat := none
  completedAt : Option Nat := none
  error : Option String := none
  retryCount : Nat
  maxRetries : Nat
  steps : Option (List TaskStep) := none
  currentStepIndex : Option Nat := none
deriving DecidableEq, Repr

/-- A Partial of Task as passed to TaskStorage.updateTask: a field set to
some v means the update carries that field; none means the field is absent
from the update object and the stored value is kept. -/
structure TaskUpdates where
  status : Option TaskStatus := none
  startedAt : Option Nat := none
  completedAt : Option Nat := none
  error : Option String := none
  retryCount : Option Nat := none
  currentStepIndex : Option Nat := none
deriving DecidableEq, Repr

/-- Spread-merge “{ ...task, ...updates }” for the fields carried by
TaskUpdates. -/
def applyUpdates (t : Task) (u : TaskUpdates) : Task :=
  { t with
    status := u.status.getD t.status,
    startedAt := match u.startedAt with | some v => some v | none => t.startedAt,
    completedAt := match u.completedAt with | some v => some v | none => t.completedAt,
    error := match u.error with | some v => some v | none => t.error,
    retryCount := u.retryCount.getD t.retryCount,
    currentStepIndex := match u.currentStepIndex with | some v => some v | none => t.currentStepIndex }

namespace TaskStorage

/-- TaskStorage.getTask / the find-by-id used throughout background.ts:
first task whose id matches. -/
def getTask (tasks : List Task) (taskId : String) : Option Task :=
  tasks.find? (fun t => t.id == taskId)

/-- TaskStorage.getNextPendingTask: first task with status PENDING. -/
def getNextPendingTask (tasks : List Task) : Option Task :=
  tasks.find? (fun t => t.status == TaskStatus.PENDING)

/-- TaskStorage.updateTask: findIndex by id; when found, replace that entry
with the spread-merge of the update; when absent, save nothing. -/
def updateTask (tasks : List Task) (taskId : String) (u : TaskUpdates) : List Task :=
  match tasks with
  | [] => []
  | t :: ts =>
    if t.id == taskId then applyUpdates t u :: ts
    else t :: updateTask ts taskId u

/-- The mutation TaskStorage.updateStepStatus performs on one step object:
set the status, record the error when one is given, stamp startedAt on
RUNNING and completedAt on COMPLETED or FAILED. -/
def patchStep (st : TaskStep) (status : TaskStatus) (err : Option String) (now : Nat) :
    TaskStep :=
  { st with
    status := status,
    error := match err with | some e => some e | none => st.error,
    startedAt := if status = TaskStatus.RUNNING then some now else st.startedAt,
    completedAt :=
      if status = TaskStatus.COMPLETED ∨ status = TaskStatus.FAILED then some now
      else st.completedAt }

/-- The in-place mutation TaskStorage.updateStepStatus performs on the found
task: when the task has a steps array and the index is in range, patch the
step at that index; otherwise save nothing. -/
def applyStepUpdate (t : Task) (stepIndex : Nat) (status : TaskStatus)
    (err : Option String) (now : Nat) : Task :=
  match t.steps with
  | none => t
  | some steps =>
    match steps[stepIndex]? with
    | none => t
    | some st => { t with steps := some (steps.set stepIndex (patchStep st status err now)) }

/-- TaskStorage.updateStepStatus: find the task by id and apply the step
mutation to it; tasks other than the first match are untouched. -/
def updateStepStatus (tasks : List Task) (taskId : String) (stepIndex : Nat)
    (status : TaskStatus) (err : Option String) (now : Nat) : List Task :=
  match tasks with
  | [] => []
  | t :: ts =>
    if t.id == taskId then applyStepUpdate t stepIndex status err now :: ts
    else t :: updateStepStatus ts taskId stepIndex status err now

end TaskStorage

/-! ## Background coordinator (src/background.ts) -/

/-- Coordinator state: the persisted task list together with the in-memory
currentTask pointer of the service worker. -/
structure Coord where
  tasks : List Task
  currentTask : Option Task
deriving DecidableEq, Repr

/-- Deferred continuation chosen by handleTaskFailure / executeTask: either
nothing, a retry of executeNextTask after a fixed delay (the setTimeout in
handleTaskFailure), or an immediate executeNextTask call. -/
inductive FailureFollowUp where
  | noTask
  | retryAfter (delayMs : Nat)
  | executeNext
deriving DecidableEq, Repr

/-- Outcome of the tab acquisition plus SUBMIT_TASK round trip inside
executeTask's try block: ok, or a thrown/propagated failure message. -/
inductive SubmitOutcome where
  | ok
  | failed (msg : String)
deriving DecidableEq, Repr

/-- handleTaskFailure from src/background.ts: when retryCount < maxRetries,
set the task back to PENDING with retryCount+1 and schedule executeNextTask
after 5000 ms; otherwise clear currentTask and run executeNextTask at once. -/
def handleTaskFailure (c : Coord) (taskId : String) : Coord × FailureFollowUp :=
  match TaskStorage.getTask c.tasks taskId with
  | none => (c, FailureFollowUp.noTask)
  | some task =>
    if task.retryCount < task.maxRetries then
      ({ c with
          tasks := TaskStorage.updateTask c.tasks taskId
            { status := some TaskStatus.PENDING, retryCount := some (task.retryCount + 1) } },
        FailureFollowUp.retryAfter 5000)
    else
      ({ c with currentTask := none }, FailureFollowUp.executeNext)

/-- executeTask from src/background.ts: set currentTask, persist RUNNING with
startedAt, then submit; on a thrown failure persist FAILED with the error
message, clear currentTask and run handleTaskFailure. -/
def executeTask (c : Coord) (task : Task) (now : Nat) (outcome : SubmitOutcome) :
    Coord × FailureFollowUp :=
  let c1 : Coord :=
    { tasks := TaskStorage.updateTask c.tasks task.id
        { status := some TaskStatus.RUNNING, startedAt := some now },
      currentTask := some task }
  match outcome with
  | SubmitOutcome.ok => (c1, FailureFollowUp.noTask)
  | SubmitOutcome.failed msg =>
    let c2 : Coord :=
      { tasks := TaskStorage.updateTask c1.tasks task.id
          { status := some TaskStatus.FAILED, error := some msg },
        currentTask := none }
    handleTaskFailure c2 task.id

/-- executeNextTask from src/background.ts: no-op when a task is already
executing; otherwise run the first pending task, if any. -/
def executeNextTask (c : Coord) (now : Nat) (outcome : SubmitOutcome) :
    Coord × FailureFollowUp :=
  match c.currentTask with
  | some _ => (c, FailureFollowUp.noTask)
  | none =>
    match TaskStorage.getNextPendingTask c.tasks with
    | none => (c, FailureFollowUp.noTask)
    | some t => executeTask c t now outcome

/-- handleNewTaskAdded from src/background.ts: when nothing is executing,
try the next pending task. -/
def handleNewTaskAdded (c : Coord) (now : Nat) (outcome : SubmitOutcome) :
    Coord × FailureFollowUp :=
  match c.currentTask with
  | some _ => (c, FailureFollowUp.noTask)
  | none => executeNextTask c now outcome

/-- handleStartTask from src/background.ts: look the task up by id and, when
present, call executeTask on it directly - with no check of currentTask or
of any other task's status. -/
def handleStartTask (c : Coord) (taskId : String) (now : Nat) (outcome : SubmitOutcome) :
    Coord × FailureFollowUp :=
  match TaskStorage.getTask c.tasks taskId with
  | none => (c, FailureFollowUp.noTask)
  | some t => executeTask c t now outcome

/-- handleStopTask from src/background.ts: when the id matches currentTask,
send STOP_TASK to the content script (second component: abort instruction
dispatched) and clear the pointer; in every case persist status PENDING for
the id and answer success (third component). -/
def handleStopTask (c : Coord) (taskId : String) : Coord × Bool × Bool :=
  let m : Coord × Bool :=
    match c.currentTask with
    | some t => if t.id == taskId then ({ c with currentTask := none }, true) else (c, false)
    | none => (c, false)
  ({ m.1 with tasks := TaskStorage.updateTask m.1.tasks taskId { status := some TaskStatus.PENDING } },
    m.2, true)

/-- Number of stored tasks whose status is RUNNING. -/
def countRunning (tasks : List Task) : Nat :=
  tasks.countP (fun t => t.status == TaskStatus.RUNNING)

/-! ## Multi-step executor (src/core/task-executor.ts) -/

namespace TaskExecutor

/-- Outcome of one step as driven by the adapter: submitTask returned false,
waitForCompletion rejected (checkStatus returned FAILED or threw, with the
thrown message), or the step completed. -/
inductive StepOutcome where
  | submitFail
  | waitFailed (msg : String)
  | ok
deriving DecidableEq, Repr

/-- TaskExecutor.executeStep: mark the step RUNNING; on submit failure mark
it FAILED with the fixed message; on a rejected wait mark it FAILED with the
thrown message; on success mark it COMPLETED.  Returns the stores and
whether the step succeeded. -/
def executeStep (tasks : List Task) (taskId : String) (stepIndex : Nat)
    (o : StepOutcome) (now : Nat) : List Task × Bool :=
  let t1 := TaskStorage.updateStepStatus tasks taskId stepIndex TaskStatus.RUNNING none now
  match o with
  | StepOutcome.submitFail =>
    (TaskStorage.updateStepStatus t1 taskId stepIndex TaskStatus.FAILED
      (some "提交失败") now, false)
  | StepOutcome.waitFailed msg =>
    (TaskStorage.updateStepStatus t1 taskId stepIndex TaskStatus.FAILED (some msg) now, false)
  | StepOutcome.ok =>
    (TaskStorage.updateStepStatus t1 taskId stepIndex TaskStatus.COMPLETED none now, true)

/-- The loop body of TaskExecutor.executeMultiStep, indexed by the current
step index i and the number of remaining steps: persist currentStepIndex,
run the step; on failure persist the whole task FAILED with completedAt and
stop; after the last step persist COMPLETED with completedAt. -/
def runSteps (taskId : String) (outcomes : Nat → StepOutcome) (now : Nat) :
    List Task → Nat → Nat → List Task
  | tasks, _, 0 =>
    TaskStorage.updateTask tasks taskId
      { status := some TaskStatus.COMPLETED, completedAt := some now }
  | tasks, i, r + 1 =>
    let t1 := TaskStorage.updateTask tasks taskId { currentStepIndex := some i }
    let res := executeStep t1 taskId i (outcomes i) now
    if res.2 then runSteps taskId outcomes now res.1 (i + 1) r
    else
      TaskStorage.updateTask res.1 taskId
        { status := some TaskStatus.FAILED, completedAt := some now }

/-- TaskExecutor.executeMultiStep: persist RUNNING with startedAt and
currentStepIndex = 0, then run the steps in order; numSteps is the length of
the executor's in-memory steps array. -/
def executeMultiStep (tasks : List Task) (taskId : String) (numSteps : Nat)
    (outcomes : Nat → StepOutcome) (now : Nat) : List Task :=
  let t0 := TaskStorage.updateTask tasks taskId
    { status := some TaskStatus.RUNNING, startedAt := some now, currentStepIndex := some 0 }
  runSteps taskId outcomes now t0 0 numSteps

end TaskExecutor

/-! ## ChatGPT adapter status checker (src/adapters/chatgpt-adapter.ts) -/

/-- Mutable monitoring fields of ChatGPTAdapter read or written by
checkStatus.  startMonitoring initialises both to 0. -/
structure ChatGPTState where
  lastResponseLength : Nat
  stableCheckCount : Nat
deriving DecidableEq, Repr

/-- ChatGPTAdapter state right after startMonitoring. -/
def chatgptStart : ChatGPTState := { lastResponseLength := 0, stableCheckCount := 0 }

/-- One tick's DOM reads in ChatGPTAdapter.checkStatus. -/
structure ChatGPTObs where
  errorPresent : Bool
  stopButtonPresent : Bool
  submitButtonPresent : Bool
  submitButtonDisabled : Bool
  loadingIndicatorShown : Bool
  latestResponsePresent : Bool
  latestResponseLength : Nat
deriving DecidableEq, Repr

namespace ChatGPT

/-- ChatGPTAdapter.checkStatus as a pure transition: error alert wins; a
stop button means RUNNING with the stability counter reset; an enabled
submit button means COMPLETED at once; a shown loading indicator or a
missing response means RUNNING; otherwise count consecutive ticks with an
unchanged non-zero response length and report COMPLETED at 3. -/
def checkStatus (s : ChatGPTState) (o : ChatGPTObs) : TaskStatus × ChatGPTState :=
  if o.errorPresent then (TaskStatus.FAILED, s)
  else if o.stopButtonPresent then (TaskStatus.RUNNING, { s with stableCheckCount := 0 })
  else if o.submitButtonPresent ∧ o.submitButtonDisabled = false then (TaskStatus.COMPLETED, s)
  else if o.loadingIndicatorShown then (TaskStatus.RUNNING, s)
  else if o.latestResponsePresent = false then (TaskStatus.RUNNING, s)
  else
    let len := o.latestResponseLength
    if len = s.lastResponseLength ∧ 0 < len then
      let c := s.stableCheckCount + 1
      if 3 ≤ c then (TaskStatus.COMPLETED, { s with stableCheckCount := c })
      else (TaskStatus.RUNNING, { s with stableCheckCount := c, lastResponseLength := len })
    else (TaskStatus.RUNNING, { s with stableCheckCount := 0, lastResponseLength := len })

end ChatGPT

/-! ## Gemini adapter status checker (src/adapters/gemini-adapter.ts) -/

/-- Mutable monitoring fields of GeminiAdapter read or written by
checkStatus: the busy-seen flag, the flag set by the MutationObserver path,
and the two counters it resets. -/
structure GeminiState where
  hasSeenBusyState : Bool
  observerConfirmedIdle : Bool
  stableCheckCount : Nat
  buttonStableCount : Nat
deriving DecidableEq, Repr

/-- GeminiAdapter state right after startMonitoring. -/
def geminiStart : GeminiState :=
  { hasSeenBusyState := false, observerConfirmedIdle := false,
    stableCheckCount := 0, buttonStableCount := 0 }

/-- One tick's DOM read in GeminiAdapter.checkStatus: whether
isStopVisible(stopButton) or isStopVisible(submitButton) held (a visible
button with the stop class or a stop aria-label). -/
structure GeminiObs where
  stopIndicatorVisible : Bool
deriving DecidableEq, Repr

/-- DOM reads of GeminiAdapter.checkCompletionAfterStable, the callback run
3 s after the last MutationObserver event. -/
structure GeminiDomObs where
  msSinceLastMutation : Nat
  stopButtonVisible : Bool
  stopButtonHasStopSemantics : Bool
  submitButtonPresent : Bool
  submitButtonHasStopClass : Bool
  loadingIndicatorDisplayed : Bool
deriving DecidableEq, Repr

namespace Gemini

/-- Effect of GeminiAdapter.stopMonitoring on the checkStatus-relevant
state: it clears hasSeenBusyState. -/
def stopMonitoringState (s : GeminiState) : GeminiState :=
  { s with hasSeenBusyState := false }

/-- GeminiAdapter.checkStatus as a pure transition: when the observer flag
is set, report COMPLETED and stop monitoring; when a stop indicator is
visible, set hasSeenBusyState, zero both counters, clear the observer flag
and report RUNNING; otherwise report COMPLETED as soon as hasSeenBusyState
holds, else RUNNING. -/
def checkStatus (s : GeminiState) (o : GeminiObs) : TaskStatus × GeminiState :=
  if s.observerConfirmedIdle then (TaskStatus.COMPLETED, stopMonitoringState s)
  else if o.stopIndicatorVisible then
    (TaskStatus.RUNNING,
      { s with hasSeenBusyState := true, stableCheckCount := 0,
               buttonStableCount := 0, observerConfirmedIdle := false })
  else if s.hasSeenBusyState then (TaskStatus.COMPLETED, stopMonitoringState s)
  else (TaskStatus.RUNNING, s)

/-- GeminiAdapter.checkCompletionAfterStable: with at least 3000 ms since
the last mutation, and no visible stop-semantics button, and a submit
button present without the stop class, and no loading indicator displayed,
set observerConfirmedIdle. -/
def checkCompletionAfterStable (s : GeminiState) (o : GeminiDomObs) : GeminiState :=
  if 3000 ≤ o.msSinceLastMutation then
    if o.stopButtonVisible ∧ o.stopButtonHasStopSemantics then s
    else if o.submitButtonPresent = false then s
    else if o.submitButtonHasStopClass then s
    else if o.loadingIndicatorDisplayed then s
    else { s with observerConfirmedIdle := true }
  else s

/-- A run of the 2 s poll loop: apply checkStatus to each observation in
turn, collecting the reported statuses. -/
def runTicks : GeminiState → List GeminiObs → List TaskStatus × GeminiState
  | s, [] => ([], s)
  | s, o :: os =>
    let r := checkStatus s o
    let rest := runTicks r.2 os
    (r.1 :: rest.1, rest.2)

end Gemini

/-! ## Content-script status handler (src/content.ts) -/

/-- Reply shape of handleCheckStatus in src/content.ts. -/
structure StatusReply where
  status : TaskStatus
  reason : Option String
deriving DecidableEq, Repr

/-- handleCheckStatus from src/content.ts: when an adapter is monitoring a
submission, defer to its checkStatus; with no active adapter, answer
COMPLETED with the page-idle reason string. -/
def handleCheckStatus {σ : Type} (currentAdapter : Option σ)
    (check : σ → TaskStatus) : StatusReply :=
  match currentAdapter with
  | some a => { status := check a, reason := some "正在监控一个任务的执行" }
  | none => { status := TaskStatus.COMPLETED, reason := some "页面空闲，无任务执行" }

/-! ## Concrete values used by counterexamples and witnesses -/

/-- A minimal stored task with the given id and status. -/
def mkTask (id : String) (st : TaskStatus) : Task :=
  { id := id, prompt := "", status := st, createdAt := 0, retryCount := 0, maxRetries := 3 }

/-- A task currently marked RUNNING in the store. -/
def taskA : Task := mkTask "A" TaskStatus.RUNNING

/-- A second, pending task in the store. -/
def taskB : Task := mkTask "B" TaskStatus.PENDING

/-- Coordinator state with taskA running (pointer set) and taskB pending. -/
def coordAB : Coord := { tasks := [taskA, taskB], currentTask := some taskA }

/-- Three pending steps, as the sidepanel creates them from parsed content. -/
def threeSteps : List TaskStep :=
  [ { index := 0, content := "a".toList, status := TaskStatus.PENDING },
    { index := 1, content := "b".toList, status := TaskStatus.PENDING },
    { index := 2, content := "c".toList, status := TaskStatus.PENDING } ]

/-- A pending 3-step task about to be run by the executor. -/
def multiTask : Task :=
  { mkTask "T" TaskStatus.PENDING with steps := some threeSteps, currentStepIndex := some 0 }

/-- Adapter behaviour where submission of step 1 (the second step) fails. -/
def failAtSecond : Nat → TaskExecutor.StepOutcome :=
  fun i => if i = 1 then TaskExecutor.StepOutcome.submitFail else TaskExecutor.StepOutcome.ok

/-- ChatGPT DOM snapshot of an idle page: no error alert, no stop button, an
enabled send button — exactly the page state right after a submission whose
generation has not visibly started. -/
def chatgptIdleObs : ChatGPTObs :=
  { errorPresent := false, stopButtonPresent := false, submitButtonPresent := true,
    submitButtonDisabled := false, loadingIndicatorShown := false,
    latestResponsePresent := false, latestResponseLength := 0 }

/-- Gemini tick on which the stop button is visible. -/
def busyTick : GeminiObs := { stopIndicatorVisible := true }

/-- Gemini tick on which the stop button is absent. -/
def idleTick : GeminiObs := { stopIndicatorVisible := false }

/-! ## Theorems -/

/-- Helper: with enough fuel, splitting a list in which the separator does
not occur returns the singleton list of the input. -/
theorem splitOnSeparatorAux_of_not_includes (fuel : Nat) (s : List Char)
    (hf : s.length ≤ fuel) (h : listIncludes stepSeparator s = false) :
    splitOnSeparatorAux fuel s = [s] := by
  induction fuel generalizing s with
  | zero =>
    cases s with
    | nil => simp [splitOnSeparatorAux]
    | cons c cs => simp at hf
  | succ n ih =>
    cases s with
    | nil => simp [splitOnSeparatorAux]
    | cons c cs =>
      rw [listIncludes, Bool.or_eq_false_iff] at h
      rw [splitOnSeparatorAux, if_neg (by simp [h.1])]
      rw [ih cs (by simp at hf; omega) h.2]

/-- Helper: splitting a list in which the separator does not occur returns
the singleton list of the input, matching JS split with no match. -/
theorem splitOnSeparator_of_not_includes (s : List Char)
    (h : listIncludes stepSeparator s = false) : splitOnSeparator s = [s] :=
  splitOnSeparatorAux_of_not_includes s.length s le_rfl h

/-- Helper: parseTaskSteps agrees with the spec's step-separator contract on
every input; the early includes-check of the source is subsumed because a
separator-free input splits into one segment, hence fewer than 2. -/
theorem parse_eq_contract (content : List Char) :
    parseTaskSteps content = specStepContract content := by
  unfold parseTaskSteps specStepContract
  by_cases h : listIncludes stepSeparator content = false
  · rw [if_pos h, splitOnSeparator_of_not_includes content h]
    have hle : (([content].map trimList).filter (fun p => 0 < p.length)).length ≤ 1 := by
      simp only [List.map]
      cases hh : decide (0 < (trimList content).length) <;> simp [List.filter, hh]
    rw [if_neg (by omega)]
  · rw [if_neg h]
    have hlen : ∀ (l : List (List Char)),
        (l.enum.map (fun p =>
          ({ index := p.1, content := p.2, status := TaskStatus.PENDING } : TaskStep))).length
          = l.length := by
      intro l; simp [List.enum_length]
    set segs := ((splitOnSeparator content).map trimList).filter (fun p => 0 < p.length)
      with hsegs
    by_cases h2 : 2 ≤ segs.length
    · rw [if_pos h2, if_neg (by rw [hlen, ← hsegs]; omega)]
    · rw [if_neg h2, if_pos (by rw [hlen, ← hsegs]; omega)]

/-- Claim C6 (confirmed): for every raw content string, the parser realises
exactly the spec's step-separator contract - split on the literal 8-character
delimiter, trim each segment, discard zero-length segments, and yield a step
list only when at least 2 non-empty segments remain, otherwise no steps; in
particular the delimiter alone yields no steps, and content in which the
delimiter does not occur yields no steps. -/
theorem C6_step_parser_contract :
    (∀ content, parseTaskSteps content = specStepContract content) ∧
    parseTaskSteps stepSeparator = none ∧
    (∀ content, listIncludes stepSeparator content = false →
      parseTaskSteps content = none) := by
  refine ⟨parse_eq_contract, by decide, fun content h => ?_⟩
  unfold parseTaskSteps
  rw [if_pos h]

/-- Witness for C6: evaluated on the spec's scenario 2 input, which contains
no delimiter, the hypothesis of the third conjunct holds and the parser
yields no steps. -/
theorem C6_step_parser_contract_witness :
    listIncludes stepSeparator "Just one paragraph".toList = false ∧
    parseTaskSteps "Just one paragraph".toList = none :=
  ⟨by decide, C6_step_parser_contract.2.2 _ (by decide)⟩

/-- Claim C8 (confirmed): parsing is deterministic and hence idempotent
across invocations: parseTaskSteps reads nothing but its argument (the
source function touches no mutable state), so its embedding is a pure
function and two invocations on equal raw content yield identical results -
same presence of steps and, when present, the same ordered list of indices,
contents and statuses. -/
theorem C8_parse_deterministic :
    ∀ content other : List Char, content = other →
      parseTaskSteps content = parseTaskSteps other := by
  intro content other h
  rw [h]

/-- Witness for C8: the two invocations on the spec's scenario 1 content
agree. -/
theorem C8_parse_deterministic_witness :
    "StepA--------StepB".toList = "StepA--------StepB".toList ∧
    parseTaskSteps "StepA--------StepB".toList = parseTaskSteps "StepA--------StepB".toList :=
  ⟨rfl, C8_parse_deterministic _ _ rfl⟩

/-- Helper: the spread-merge never changes the id. -/
theorem applyUpdates_id (t : Task) (u : TaskUpdates) : (applyUpdates t u).id = t.id := rfl

/-- Helper: updating a stored task rewrites exactly the first entry with a
matching id, so a subsequent lookup returns the merged record. -/
theorem getTask_updateTask (tasks : List Task) (taskId : String) (u : TaskUpdates)
    (t : Task) (h : TaskStorage.getTask tasks taskId = some t) :
    TaskStorage.getTask (TaskStorage.updateTask tasks taskId u) taskId
      = some (applyUpdates t u) := by
  induction tasks with
  | nil => simp [TaskStorage.getTask] at h
  | cons a as ih =>
    cases hb : (a.id == taskId) with
    | true =>
      simp only [TaskStorage.getTask, List.find?, hb] at h
      injection h with h
      subst h
      have hb2 : ((applyUpdates a u).id == taskId) = true := by
        rw [applyUpdates_id]; exact hb
      simp only [TaskStorage.updateTask, hb, if_true, TaskStorage.getTask, List.find?, hb2]
    | false =>
      simp only [TaskStorage.getTask, List.find?, hb] at h
      simp only [TaskStorage.updateTask, hb, Bool.false_eq_true, if_false,
        TaskStorage.getTask, List.find?]
      exact ih h

/-- Helper: updating an id that is nowhere in the store saves nothing. -/
theorem updateTask_of_not_found (tasks : List Task) (taskId : String) (u : TaskUpdates)
    (h : TaskStorage.getTask tasks taskId = none) :
    TaskStorage.updateTask tasks taskId u = tasks := by
  rw [TaskStorage.getTask, List.find?_eq_none] at h
  induction tasks with
  | nil => rfl
  | cons a as ih =>
    rw [TaskStorage.updateTask, if_neg (h a (by simp))]
    rw [ih (fun x hx => h x (by simp [hx]))]

/-- Helper: whichever branch the pointer check takes, handleStopTask leaves
the stored list equal to the PENDING update of the requested id. -/
theorem handleStopTask_tasks (c : Coord) (taskId : String) :
    ((handleStopTask c taskId).1).tasks
      = TaskStorage.updateTask c.tasks taskId { status := some TaskStatus.PENDING } := by
  unfold handleStopTask
  cases hc : c.currentTask with
  | none => rfl
  | some t =>
    by_cases ht : (t.id == taskId) = true
    · simp only [ht, if_true]
    · simp only [ht, Bool.false_eq_true, if_false]

/-- Claim C4 (confirmed): for every task id present in the store and every
coordinator state, handleStopTask persists status PENDING for that task
(never FAILED) and reports success, whether or not the id matched the
in-memory currentTask pointer; when it does match, the content script is
sent the abort instruction and the pointer is cleared. -/
theorem C4_stop_forces_pending :
    ∀ (c : Coord) (taskId : String) (t : Task),
      TaskStorage.getTask c.tasks taskId = some t →
      (handleStopTask c taskId).2.2 = true ∧
      (∃ t', TaskStorage.getTask ((handleStopTask c taskId).1).tasks taskId = some t' ∧
        t'.status = TaskStatus.PENDING ∧ t'.status ≠ TaskStatus.FAILED) ∧
      (∀ ct, c.currentTask = some ct → ct.id = taskId →
        (handleStopTask c taskId).2.1 = true ∧
        ((handleStopTask c taskId).1).currentTask = none) := by
  intro c taskId t h
  refine ⟨rfl, ?_, ?_⟩
  · refine ⟨applyUpdates t { status := some TaskStatus.PENDING }, ?_, rfl,
      fun hx => TaskStatus.noConfusion (hx : TaskStatus.PENDING = TaskStatus.FAILED)⟩
    rw [handleStopTask_tasks]
    exact getTask_updateTask c.tasks taskId _ t h
  · intro ct hct hid
    refine ⟨?_, ?_⟩ <;> simp [handleStopTask, hct, hid]

/-- Witness for C4: stopping task A while it is running and pointed at by
currentTask persists PENDING, reports success, dispatches the abort and
clears the pointer. -/
theorem C4_stop_forces_pending_witness :
    TaskStorage.getTask coordAB.tasks "A" = some taskA ∧
    ((handleStopTask coordAB "A").2.2 = true ∧
      (∃ t', TaskStorage.getTask ((handleStopTask coordAB "A").1).tasks "A" = some t' ∧
        t'.status = TaskStatus.PENDING ∧ t'.status ≠ TaskStatus.FAILED) ∧
      (∀ ct, coordAB.currentTask = some ct → ct.id = "A" →
        (handleStopTask coordAB "A").2.1 = true ∧
        ((handleStopTask coordAB "A").1).currentTask = none)) :=
  ⟨by decide, C4_stop_forces_pending coordAB "A" taskA (by decide)⟩

/-- Claim C9 (confirmed): for an id not present in the store,
TaskStorage.updateTask changes nothing - no task is created, modified or
removed - and handleStopTask for such an id still reports success while
leaving the stored list unchanged. -/
theorem C9_update_unknown_id_is_noop :
    ∀ (tasks : List Task) (taskId : String) (u : TaskUpdates),
      TaskStorage.getTask tasks taskId = none →
      TaskStorage.updateTask tasks taskId u = tasks ∧
      (∀ c : Coord, c.tasks = tasks →
        ((handleStopTask c taskId).1).tasks = tasks ∧
        (handleStopTask c taskId).2.2 = true) := by
  intro tasks taskId u h
  refine ⟨updateTask_of_not_found tasks taskId u h, ?_⟩
  intro c hc
  refine ⟨?_, rfl⟩
  rw [handleStopTask_tasks, hc, updateTask_of_not_found tasks taskId _ (hc ▸ h)]

/-- Witness for C9: updating the unknown id Z in a one-task store changes
nothing, and stopping Z still succeeds. -/
theorem C9_update_unknown_id_is_noop_witness :
    TaskStorage.getTask [taskA] "Z" = none ∧
    (TaskStorage.updateTask [taskA] "Z" { status := some TaskStatus.FAILED } = [taskA] ∧
      (∀ c : Coord, c.tasks = [taskA] →
        ((handleStopTask c "Z").1).tasks = [taskA] ∧
        (handleStopTask c "Z").2.2 = true)) :=
  ⟨by decide, C9_update_unknown_id_is_noop [taskA] "Z" _ (by decide)⟩

/-- Claim C7 (confirmed): handleTaskFailure retries a failed task with
retryCount below maxRetries by setting it back to PENDING with retryCount
incremented by exactly 1 and scheduling the delayed (5000 ms) re-attempt;
at or above maxRetries it leaves the store - and hence the FAILED status -
untouched and proceeds to the next pending task at once. -/
theorem C7_retry_policy :
    ∀ (c : Coord) (taskId : String) (task : Task),
      TaskStorage.getTask c.tasks taskId = some task →
      task.status = TaskStatus.FAILED →
      (task.retryCount < task.maxRetries →
        (handleTaskFailure c taskId).2 = FailureFollowUp.retryAfter 5000 ∧
        ∃ t', TaskStorage.getTask ((handleTaskFailure c taskId).1).tasks taskId = some t' ∧
          t'.status = TaskStatus.PENDING ∧ t'.retryCount = task.retryCount + 1) ∧
      (task.maxRetries ≤ task.retryCount →
        (handleTaskFailure c taskId).2 = FailureFollowUp.executeNext ∧
        ((handleTaskFailure c taskId).1).tasks = c.tasks ∧
        TaskStorage.getTask ((handleTaskFailure c taskId).1).tasks taskId = some task ∧
        task.status = TaskStatus.FAILED) := by
  intro c taskId task h hst
  simp only [handleTaskFailure, h]
  constructor
  · intro hr
    rw [if_pos hr]
    exact ⟨rfl, applyUpdates task _, getTask_updateTask c.tasks taskId _ task h, rfl, rfl⟩
  · intro hr
    rw [if_neg (by omega)]
    exact ⟨rfl, rfl, h, hst⟩

/-- Witness for C7: a failed task with retryCount 0 and maxRetries 3 is
reset to PENDING with retryCount 1 and a 5000 ms re-attempt is scheduled. -/
theorem C7_retry_policy_witness :
    (mkTask "F" TaskStatus.FAILED).retryCount < (mkTask "F" TaskStatus.FAILED).maxRetries ∧
    ((handleTaskFailure { tasks := [mkTask "F" TaskStatus.FAILED], currentTask := none } "F").2
        = FailureFollowUp.retryAfter 5000 ∧
      ∃ t', TaskStorage.getTask
          ((handleTaskFailure { tasks := [mkTask "F" TaskStatus.FAILED], currentTask := none }
            "F").1).tasks "F"
          = some t' ∧
        t'.status = TaskStatus.PENDING ∧
        t'.retryCount = (mkTask "F" TaskStatus.FAILED).retryCount + 1) :=
  ⟨by decide,
    (C7_retry_policy { tasks := [mkTask "F" TaskStatus.FAILED], currentTask := none } "F"
      (mkTask "F" TaskStatus.FAILED) (by decide) (by decide)).1 (by decide)⟩

/-- Helper: replacing one stored record adds at most one to the number of
RUNNING tasks. -/
theorem countRunning_updateTask_le (tasks : List Task) (taskId : String) (u : TaskUpdates) :
    countRunning (TaskStorage.updateTask tasks taskId u) ≤ countRunning tasks + 1 := by
  induction tasks with
  | nil => simp [TaskStorage.updateTask, countRunning]
  | cons a as ih =>
    by_cases hb : (a.id == taskId) = true
    · rw [TaskStorage.updateTask, if_pos hb]
      simp only [countRunning, List.countP_cons]
      have h1 : (if ((applyUpdates a u).status == TaskStatus.RUNNING) = true then 1 else 0) ≤ 1 := by
        split <;> omega
      omega
    · rw [TaskStorage.updateTask, if_neg hb]
      simp only [countRunning, List.countP_cons]
      simp only [countRunning] at ih
      omega

/-- Helper: an update whose status field is anything but RUNNING cannot
increase the number of RUNNING tasks. -/
theorem countRunning_updateTask_not_running (tasks : List Task) (taskId : String)
    (u : TaskUpdates) (s : TaskStatus) (hu : u.status = some s)
    (hs : s ≠ TaskStatus.RUNNING) :
    countRunning (TaskStorage.updateTask tasks taskId u) ≤ countRunning tasks := by
  induction tasks with
  | nil => simp [TaskStorage.updateTask]
  | cons a as ih =>
    by_cases hb : (a.id == taskId) = true
    · rw [TaskStorage.updateTask, if_pos hb]
      have h1 : ((applyUpdates a u).status == TaskStatus.RUNNING) = false := by
        have h2 : (applyUpdates a u).status = s := by
          simp [applyUpdates, hu]
        rw [h2]
        cases s <;> first | rfl | exact absurd rfl hs
      simp only [countRunning, List.countP_cons, h1, Bool.false_eq_true, if_false]
      omega
    · rw [TaskStorage.updateTask, if_neg hb]
      simp only [countRunning, List.countP_cons]
      simp only [countRunning] at ih
      omega

/-- Helper: handleTaskFailure never increases the number of RUNNING tasks:
it either saves nothing or resets the found task to PENDING. -/
theorem countRunning_handleTaskFailure_le (c : Coord) (taskId : String) :
    countRunning (((handleTaskFailure c taskId).1).tasks) ≤ countRunning c.tasks := by
  unfold handleTaskFailure
  split
  · exact le_rfl
  · split
    · exact countRunning_updateTask_not_running c.tasks taskId _ TaskStatus.PENDING rfl
        (fun hx => TaskStatus.noConfusion hx)
    · exact le_rfl

/-- Helper: starting from a store with no RUNNING task, executeTask ends with
at most one RUNNING task: it marks exactly one task RUNNING and its failure
path only moves that task to FAILED and possibly back to PENDING. -/
theorem countRunning_executeTask_le (c : Coord) (t : Task) (now : Nat)
    (outcome : SubmitOutcome) (h0 : countRunning c.tasks = 0) :
    countRunning (((executeTask c t now outcome).1).tasks) ≤ 1 := by
  have h1 : countRunning (TaskStorage.updateTask c.tasks t.id
      { status := some TaskStatus.RUNNING, startedAt := some now }) ≤ 1 := by
    have := countRunning_updateTask_le c.tasks t.id
      { status := some TaskStatus.RUNNING, startedAt := some now }
    omega
  cases outcome with
  | ok => simpa only [executeTask] using h1
  | failed msg =>
    simp only [executeTask]
    have h2 := countRunning_updateTask_not_running
      (TaskStorage.updateTask c.tasks t.id
        { status := some TaskStatus.RUNNING, startedAt := some now })
      t.id { status := some TaskStatus.FAILED, error := some msg } TaskStatus.FAILED rfl
      (fun hx => TaskStatus.noConfusion hx)
    have h3 : countRunning (((handleTaskFailure
        { tasks := TaskStorage.updateTask
            (TaskStorage.updateTask c.tasks t.id
              { status := some TaskStatus.RUNNING, startedAt := some now })
            t.id { status := some TaskStatus.FAILED, error := some msg },
          currentTask := none } t.id).1).tasks)
        ≤ countRunning (TaskStorage.updateTask
            (TaskStorage.updateTask c.tasks t.id
              { status := some TaskStatus.RUNNING, startedAt := some now })
            t.id { status := some TaskStatus.FAILED, error := some msg }) :=
      countRunning_handleTaskFailure_le _ t.id
    omega

/-- Claim C3, amended (corrected): the scheduler paths - executeNextTask,
also reached from handleNewTaskAdded - preserve the at-most-one-RUNNING
invariant whenever the in-memory pointer is conservative (currentTask is
none only when no stored task is RUNNING); the manual-start path
handleStartTask performs no such check and is excluded (see the
counterexample). -/
theorem C3_scheduler_preserves_single_running :
    ∀ (c : Coord) (now : Nat) (outcome : SubmitOutcome),
      countRunning c.tasks ≤ 1 →
      (c.currentTask = none → countRunning c.tasks = 0) →
      countRunning (((executeNextTask c now outcome).1).tasks) ≤ 1 ∧
      countRunning (((handleNewTaskAdded c now outcome).1).tasks) ≤ 1 := by
  intro c now outcome h1 h2
  have key : countRunning (((executeNextTask c now outcome).1).tasks) ≤ 1 := by
    unfold executeNextTask
    cases hc : c.currentTask with
    | some t => exact h1
    | none =>
      cases hp : TaskStorage.getNextPendingTask c.tasks with
      | none => exact h1
      | some t => exact countRunning_executeTask_le c t now outcome (h2 hc)
  refine ⟨key, ?_⟩
  unfold handleNewTaskAdded
  cases hc : c.currentTask with
  | some t => exact h1
  | none => exact key

/-- Witness for C3's amended theorem: from a consistent one-pending-task
state, scheduling keeps at most one task RUNNING. -/
theorem C3_scheduler_preserves_single_running_witness :
    countRunning [taskB] ≤ 1 ∧
    (countRunning (((executeNextTask { tasks := [taskB], currentTask := none } 50
        SubmitOutcome.ok).1).tasks) ≤ 1 ∧
      countRunning (((handleNewTaskAdded { tasks := [taskB], currentTask := none } 50
        SubmitOutcome.ok).1).tasks) ≤ 1) :=
  ⟨by decide,
    C3_scheduler_preserves_single_running { tasks := [taskB], currentTask := none } 50
      SubmitOutcome.ok (by decide) (fun _ => by decide)⟩

/-- Counterexample for C3 as stated: with task A RUNNING (and pointed at by
currentTask) and task B PENDING, the manual start request START_TASK for B
runs handleStartTask, which marks B RUNNING without checking the active
task, leaving two stored tasks with status RUNNING at once. -/
theorem C3_counterexample :
    countRunning ((handleStartTask coordAB "B" 100 SubmitOutcome.ok).1).tasks = 2 := by
  decide

/-- Helper: a Gemini session that has never observed the stop indicator and
whose observer flag is clear never reports COMPLETED on any tick of a
busy-free observation sequence. -/
theorem gemini_no_busy_no_completed (obs : List GeminiObs) :
    ∀ s : GeminiState, s.hasSeenBusyState = false → s.observerConfirmedIdle = false →
      (∀ o ∈ obs, o.stopIndicatorVisible = false) →
      TaskStatus.COMPLETED ∉ (Gemini.runTicks s obs).1 := by
  induction obs with
  | nil => intro s _ _ _; simp [Gemini.runTicks]
  | cons o os ih =>
    intro s hb hi hall
    have ho : o.stopIndicatorVisible = false := hall o (by simp)
    have hstep : Gemini.checkStatus s o = (TaskStatus.RUNNING, s) := by
      unfold Gemini.checkStatus
      rw [if_neg (by simp [hi]), if_neg (by simp [ho]), if_neg (by simp [hb])]
    rw [Gemini.runTicks, hstep]
    simp only [List.mem_cons]
    rintro (hx | hx)
    · exact TaskStatus.noConfusion hx
    · exact ih s hb hi (fun x hxm => hall x (by simp [hxm])) hx

/-- Claim C1, amended (corrected): restricted to the Gemini adapter and to
sessions in which the MutationObserver confirmation never fires, the claim
holds: over any sequence of poll ticks from a fresh session, checkStatus
reports COMPLETED only if some tick observed the visible stop (busy)
indicator, which is what sets hasSeenBusyState.  (The ChatGPT adapter and
Gemini's observer-confirmed path report COMPLETED without any busy
observation - see the counterexample.) -/
theorem C1_gemini_completed_requires_busy :
    ∀ obs : List GeminiObs,
      TaskStatus.COMPLETED ∈ (Gemini.runTicks geminiStart obs).1 →
      ∃ o ∈ obs, o.stopIndicatorVisible = true := by
  intro obs h
  by_contra hno
  push_neg at hno
  simp only [Bool.not_eq_true] at hno
  exact gemini_no_busy_no_completed obs geminiStart rfl rfl hno h

/-- Witness for C1's amended theorem: a session that sees the stop button
once and then finds it gone reports COMPLETED, and indeed some tick observed
the busy indicator. -/
theorem C1_gemini_completed_requires_busy_witness :
    TaskStatus.COMPLETED ∈ (Gemini.runTicks geminiStart [busyTick, idleTick]).1 ∧
    ∃ o ∈ [busyTick, idleTick], o.stopIndicatorVisible = true :=
  ⟨by decide, C1_gemini_completed_requires_busy [busyTick, idleTick] (by decide)⟩

/-- Counterexample for C1 as stated: the ChatGPT adapter's checkStatus (one
of the two status checkers the claim covers) reports COMPLETED on the very
first tick of a fresh session when the send button is enabled, although no
tick ever observed a busy indicator - the adapter has no hasSeenBusy guard
at all (its own unit tests assert this behaviour). -/
theorem C1_counterexample :
    (ChatGPT.checkStatus chatgptStart chatgptIdleObs).1 = TaskStatus.COMPLETED ∧
    chatgptIdleObs.stopButtonPresent = false ∧
    chatgptIdleObs.loadingIndicatorShown = false := by
  decide

/-- Claim C2, amended (corrected): once a Gemini session has seen the busy
indicator, checkStatus transitions to COMPLETED on the first tick on which
the stop indicator is absent - no stability-counter threshold and no
debounce window gate this path; the 3-second quiescence requirement and the
re-confirmation that the stop button is absent exist only on the separate
MutationObserver path, which is the only way observerConfirmedIdle becomes
set. -/
theorem C2_gemini_completion_gating :
    (∀ (s : GeminiState) (o : GeminiObs),
      s.observerConfirmedIdle = false → s.hasSeenBusyState = true →
      o.stopIndicatorVisible = false →
      (Gemini.checkStatus s o).1 = TaskStatus.COMPLETED) ∧
    (∀ (s : GeminiState) (o : GeminiDomObs),
      s.observerConfirmedIdle = false →
      (Gemini.checkCompletionAfterStable s o).observerConfirmedIdle = true →
      3000 ≤ o.msSinceLastMutation ∧
      (o.stopButtonVisible = false ∨ o.stopButtonHasStopSemantics = false) ∧
      o.submitButtonPresent = true ∧ o.submitButtonHasStopClass = false ∧
      o.loadingIndicatorDisplayed = false) := by
  constructor
  · intro s o hi hb ho
    unfold Gemini.checkStatus
    rw [if_neg (by simp [hi]), if_neg (by simp [ho]), if_pos (by simp [hb])]
  · intro s o hi h
    unfold Gemini.checkCompletionAfterStable at h
    by_cases h1 : 3000 ≤ o.msSinceLastMutation
    · rw [if_pos h1] at h
      by_cases h2 : o.stopButtonVisible = true ∧ o.stopButtonHasStopSemantics = true
      · rw [if_pos h2] at h
        exact absurd h (by simp [hi])
      · rw [if_neg h2] at h
        by_cases h3 : o.submitButtonPresent = false
        · rw [if_pos h3] at h
          exact absurd h (by simp [hi])
        · rw [if_neg h3] at h
          by_cases h4 : o.submitButtonHasStopClass = true
          · rw [if_pos h4] at h
            exact absurd h (by simp [hi])
          · rw [if_neg h4] at h
            by_cases h5 : o.loadingIndicatorDisplayed = true
            · rw [if_pos h5] at h
              exact absurd h (by simp [hi])
            · refine ⟨h1, ?_, ?_, ?_, ?_⟩
              · rcases Decidable.em (o.stopButtonVisible = true) with hv | hv
                · right
                  cases hsem : o.stopButtonHasStopSemantics
                  · rfl
                  · exact absurd ⟨hv, hsem⟩ h2
                · left
                  cases hv2 : o.stopButtonVisible
                  · rfl
                  · exact absurd hv2 hv
              · cases hp : o.submitButtonPresent
                · exact absurd hp h3
                · rfl
              · cases hc : o.submitButtonHasStopClass
                · rfl
                · exact absurd hc h4
              · cases hl : o.loadingIndicatorDisplayed
                · rfl
                · exact absurd hl h5
    · rw [if_neg h1] at h
      exact absurd h (by simp [hi])

/-- Witness for C2's amended theorem: a session state with hasSeenBusyState
set, observer flag clear and stability counter still 0 reports COMPLETED on
a tick without the stop indicator. -/
theorem C2_gemini_completion_gating_witness :
    ({ hasSeenBusyState := true, observerConfirmedIdle := false, stableCheckCount := 0,
        buttonStableCount := 0 } : GeminiState).observerConfirmedIdle = false ∧
    (Gemini.checkStatus
      { hasSeenBusyState := true, observerConfirmedIdle := false, stableCheckCount := 0,
        buttonStableCount := 0 } idleTick).1 = TaskStatus.COMPLETED :=
  ⟨rfl, C2_gemini_completion_gating.1
    { hasSeenBusyState := true, observerConfirmedIdle := false, stableCheckCount := 0,
      buttonStableCount := 0 } idleTick rfl rfl rfl⟩

/-- Counterexample for C2 as stated: after a single busy tick the session's
stability counter is 0 - below any threshold of 3 - and no debounce has
elapsed, yet the very next tick that merely finds the stop indicator absent
already yields COMPLETED; so absence after a busy phase IS sufficient by
itself in GeminiAdapter.checkStatus. -/
theorem C2_counterexample :
    ((Gemini.checkStatus geminiStart busyTick).2.hasSeenBusyState = true ∧
      (Gemini.checkStatus geminiStart busyTick).2.stableCheckCount = 0) ∧
    (Gemini.checkStatus (Gemini.checkStatus geminiStart busyTick).2 idleTick).1
      = TaskStatus.COMPLETED := by
  decide

/-- Claim C10 (confirmed): whenever the content script's CHECK_STATUS
handler runs with no active adapter, it answers status COMPLETED with the
page-idle reason - never an error, an unknown status, RUNNING or FAILED -
regardless of what any adapter's checkStatus would report. -/
theorem C10_no_adapter_reports_idle_completed :
    ∀ (σ : Type) (check : σ → TaskStatus),
      handleCheckStatus (none : Option σ) check
        = { status := TaskStatus.COMPLETED, reason := some "页面空闲，无任务执行" } ∧
      (handleCheckStatus (none : Option σ) check).status ≠ TaskStatus.RUNNING ∧
      (handleCheckStatus (none : Option σ) check).status ≠ TaskStatus.FAILED := by
  intro σ check
  refine ⟨rfl, ?_, ?_⟩
  · exact fun hx => TaskStatus.noConfusion (hx : TaskStatus.COMPLETED = TaskStatus.RUNNING)
  · exact fun hx => TaskStatus.noConfusion (hx : TaskStatus.COMPLETED = TaskStatus.FAILED)

/-- Helper: applyStepUpdate only ever touches the steps array; the task-level
id, status, error, currentStepIndex and completedAt fields are unchanged. -/
theorem applyStepUpdate_fields (t : Task) (i : Nat) (status : TaskStatus)
    (err : Option String) (now : Nat) :
    (TaskStorage.applyStepUpdate t i status err now).id = t.id ∧
    (TaskStorage.applyStepUpdate t i status err now).status = t.status ∧
    (TaskStorage.applyStepUpdate t i status err now).error = t.error ∧
    (TaskStorage.applyStepUpdate t i status err now).currentStepIndex = t.currentStepIndex ∧
    (TaskStorage.applyStepUpdate t i status err now).completedAt = t.completedAt := by
  unfold TaskStorage.applyStepUpdate
  cases hs : t.steps with
  | none => simp
  | some steps =>
    cases hg : steps[i]? with
    | none => simp [hg]
    | some st => simp [hg]

/-- Helper: on a task whose steps array has an entry at the index,
applyStepUpdate replaces exactly that entry with its patch. -/
theorem applyStepUpdate_steps (t : Task) (st : List TaskStep) (i : Nat)
    (status : TaskStatus) (err : Option String) (now : Nat)
    (h : t.steps = some st) (s0 : TaskStep) (hg : st[i]? = some s0) :
    (TaskStorage.applyStepUpdate t i status err now).steps
      = some (st.set i (TaskStorage.patchStep s0 status err now)) := by
  simp [TaskStorage.applyStepUpdate, h, hg]

/-- Helper: updating the only task of a singleton store merges into it. -/
theorem updateTask_singleton (t : Task) (taskId : String) (u : TaskUpdates)
    (h : t.id = taskId) :
    TaskStorage.updateTask [t] taskId u = [applyUpdates t u] := by
  simp [TaskStorage.updateTask, h]

/-- Helper: updating a step of the only task of a singleton store applies
the step mutation to it. -/
theorem updateStepStatus_singleton (t : Task) (taskId : String) (i : Nat)
    (status : TaskStatus) (err : Option String) (now : Nat) (h : t.id = taskId) :
    TaskStorage.updateStepStatus [t] taskId i status err now
      = [TaskStorage.applyStepUpdate t i status err now] := by
  simp [TaskStorage.updateStepStatus, h]

/-- Helper: one-step unfolding of the executor loop. -/
theorem runSteps_succ (taskId : String) (outcomes : Nat → TaskExecutor.StepOutcome)
    (now : Nat) (tasks : List Task) (i r : Nat) :
    TaskExecutor.runSteps taskId outcomes now tasks i (r + 1)
      = (let t1 := TaskStorage.updateTask tasks taskId { currentStepIndex := some i };
         let res := TaskExecutor.executeStep t1 taskId i (outcomes i) now;
         if res.2 then TaskExecutor.runSteps taskId outcomes now res.1 (i + 1) r
         else TaskStorage.updateTask res.1 taskId
           { status := some TaskStatus.FAILED, completedAt := some now }) := rfl

/-- Helper: frame property of the executor loop on a single-task store.
When the first d steps from index i succeed and submission of step i+d then
fails, the loop ends with the task FAILED (completedAt stamped, task-level
error untouched, currentStepIndex at the failing step), the failing step
FAILED with the fixed submit-failure message, and every later step record
untouched; no step beyond the failing one is executed and the failing step
is not re-run. -/
theorem runSteps_submitFail_spec (outcomes : Nat → TaskExecutor.StepOutcome) (now : Nat) :
    ∀ (d i r : Nat) (t : Task) (st : List TaskStep),
      t.steps = some st →
      i + d < st.length →
      d < r →
      (∀ j, j < d → outcomes (i + j) = TaskExecutor.StepOutcome.ok) →
      outcomes (i + d) = TaskExecutor.StepOutcome.submitFail →
      ∃ (tf : Task) (stf : List TaskStep),
        TaskExecutor.runSteps t.id outcomes now [t] i r = [tf] ∧
        tf.status = TaskStatus.FAILED ∧
        tf.error = t.error ∧
        tf.completedAt = some now ∧
        tf.currentStepIndex = some (i + d) ∧
        tf.steps = some stf ∧
        stf.length = st.length ∧
        (∀ j, i + d < j → stf[j]? = st[j]?) ∧
        stf[i + d]?.map TaskStep.status = some TaskStatus.FAILED ∧
        stf[i + d]?.bind TaskStep.error = some "提交失败" := by
  intro d
  induction d with
  | zero =>
    intro i r t st hsteps hlen hr hok hfail
    obtain ⟨rp, rfl⟩ : ∃ rp, r = rp + 1 := ⟨r - 1, by omega⟩
    have hilen : i < st.length := by omega
    obtain ⟨s0, hs0⟩ : ∃ s0, st[i]? = some s0 :=
      ⟨st[i], List.getElem?_eq_getElem hilen⟩
    set ta := applyUpdates t { currentStepIndex := some i } with hta
    have e1 : TaskStorage.updateTask [t] t.id { currentStepIndex := some i } = [ta] :=
      updateTask_singleton t t.id _ rfl
    have hta_steps : ta.steps = some st := hsteps
    set tb := TaskStorage.applyStepUpdate ta i TaskStatus.RUNNING none now with htb
    have hb_id : tb.id = t.id := (applyStepUpdate_fields ta i _ none now).1
    have e2 : TaskStorage.updateStepStatus [ta] t.id i TaskStatus.RUNNING none now = [tb] :=
      updateStepStatus_singleton ta t.id i _ none now rfl
    set stb := st.set i (TaskStorage.patchStep s0 TaskStatus.RUNNING none now) with hstb
    have htb_steps : tb.steps = some stb :=
      applyStepUpdate_steps ta st i _ none now hta_steps s0 hs0
    have hgetb : stb[i]? = some (TaskStorage.patchStep s0 TaskStatus.RUNNING none now) :=
      List.getElem?_set_eq_of_lt _ hilen
    set tc := TaskStorage.applyStepUpdate tb i TaskStatus.FAILED (some "提交失败") now with htc
    have hc_id : tc.id = t.id :=
      ((applyStepUpdate_fields tb i _ (some "提交失败") now).1).trans hb_id
    have e3 : TaskStorage.updateStepStatus [tb] t.id i TaskStatus.FAILED (some "提交失败") now
        = [tc] :=
      updateStepStatus_singleton tb t.id i _ (some "提交失败") now hb_id
    set sp := TaskStorage.patchStep (TaskStorage.patchStep s0 TaskStatus.RUNNING none now)
      TaskStatus.FAILED (some "提交失败") now with hsp
    set stc := stb.set i sp with hstc
    have htc_steps : tc.steps = some stc :=
      applyStepUpdate_steps tb stb i _ (some "提交失败") now htb_steps _ hgetb
    set tf := applyUpdates tc
      { status := some TaskStatus.FAILED, completedAt := some now } with htf
    have e4 : TaskStorage.updateTask [tc] t.id
        { status := some TaskStatus.FAILED, completedAt := some now } = [tf] :=
      updateTask_singleton tc t.id _ hc_id
    have hrun : TaskExecutor.runSteps t.id outcomes now [t] i (rp + 1) = [tf] := by
      have hfail2 : outcomes i = TaskExecutor.StepOutcome.submitFail := hfail
      rw [runSteps_succ]
      dsimp only
      rw [e1, hfail2]
      show TaskStorage.updateTask
        (TaskStorage.updateStepStatus
          (TaskStorage.updateStepStatus [ta] t.id i TaskStatus.RUNNING none now)
          t.id i TaskStatus.FAILED (some "提交失败") now) t.id
        { status := some TaskStatus.FAILED, completedAt := some now } = [tf]
      rw [e2, e3, e4]
    refine ⟨tf, stc, hrun, rfl, ?_, rfl, ?_, ?_, ?_, ?_, ?_, ?_⟩
    · show tc.error = t.error
      exact ((applyStepUpdate_fields tb i _ (some "提交失败") now).2.2.1).trans
        ((applyStepUpdate_fields ta i _ none now).2.2.1)
    · show tc.currentStepIndex = some (i + 0)
      exact ((applyStepUpdate_fields tb i _ (some "提交失败") now).2.2.2.1).trans
        ((applyStepUpdate_fields ta i _ none now).2.2.2.1)
    · show tc.steps = some stc
      exact htc_steps
    · rw [hstc, hstb]
      simp [List.length_set]
    · intro j hj
      rw [hstc, hstb]
      rw [List.getElem?_set_ne (by omega), List.getElem?_set_ne (by omega)]
    · have : stc[i + 0]? = some sp := by
        rw [hstc]
        exact List.getElem?_set_eq_of_lt _ (by rw [hstb]; simp [List.length_set]; omega)
      rw [this]
      rfl
    · have : stc[i + 0]? = some sp := by
        rw [hstc]
        exact List.getElem?_set_eq_of_lt _ (by rw [hstb]; simp [List.length_set]; omega)
      rw [this]
      rfl
  | succ d ih =>
    intro i r t st hsteps hlen hr hok hfail
    obtain ⟨rp, rfl⟩ : ∃ rp, r = rp + 1 := ⟨r - 1, by omega⟩
    have hilen : i < st.length := by omega
    obtain ⟨s0, hs0⟩ : ∃ s0, st[i]? = some s0 :=
      ⟨st[i], List.getElem?_eq_getElem hilen⟩
    have hoki : outcomes i = TaskExecutor.StepOutcome.ok := hok 0 (by omega)
    set ta := applyUpdates t { currentStepIndex := some i } with hta
    have e1 : TaskStorage.updateTask [t] t.id { currentStepIndex := some i } = [ta] :=
      updateTask_singleton t t.id _ rfl
    have hta_steps : ta.steps = some st := hsteps
    set tb := TaskStorage.applyStepUpdate ta i TaskStatus.RUNNING none now with htb
    have hb_id : tb.id = t.id := (applyStepUpdate_fields ta i _ none now).1
    have e2 : TaskStorage.updateStepStatus [ta] t.id i TaskStatus.RUNNING none now = [tb] :=
      updateStepStatus_singleton ta t.id i _ none now rfl
    set stb := st.set i (TaskStorage.patchStep s0 TaskStatus.RUNNING none now) with hstb
    have htb_steps : tb.steps = some stb :=
      applyStepUpdate_steps ta st i _ none now hta_steps s0 hs0
    have hgetb : stb[i]? = some (TaskStorage.patchStep s0 TaskStatus.RUNNING none now) :=
      List.getElem?_set_eq_of_lt _ hilen
    set tc := TaskStorage.applyStepUpdate tb i TaskStatus.COMPLETED none now with htc
    have hc_id : tc.id = t.id :=
      ((applyStepUpdate_fields tb i _ none now).1).trans hb_id
    have e3 : TaskStorage.updateStepStatus [tb] t.id i TaskStatus.COMPLETED none now = [tc] :=
      updateStepStatus_singleton tb t.id i _ none now hb_id
    set sp := TaskStorage.patchStep (TaskStorage.patchStep s0 TaskStatus.RUNNING none now)
      TaskStatus.COMPLETED none now with hsp
    set stc := stb.set i sp with hstc
    have htc_steps : tc.steps = some stc :=
      applyStepUpdate_steps tb stb i _ none now htb_steps _ hgetb
    have hstc_len : stc.length = st.length := by
      rw [hstc, hstb]
      simp [List.length_set]
    have hrun : TaskExecutor.runSteps t.id outcomes now [t] i (rp + 1)
        = TaskExecutor.runSteps t.id outcomes now [tc] (i + 1) rp := by
      rw [runSteps_succ]
      dsimp only
      rw [e1, hoki]
      show TaskExecutor.runSteps t.id outcomes now
        (TaskStorage.updateStepStatus
          (TaskStorage.updateStepStatus [ta] t.id i TaskStatus.RUNNING none now)
          t.id i TaskStatus.COMPLETED none now) (i + 1) rp
        = TaskExecutor.runSteps t.id outcomes now [tc] (i + 1) rp
      rw [e2, e3]
    obtain ⟨tf, stf, ihrun, ihstatus, iherr, ihcompl, ihcsi, ihsteps, ihlen2, ihframe,
        ihfailst, ihfailerr⟩ :=
      ih (i + 1) rp tc stc htc_steps
        (by rw [hstc_len]; omega)
        (by omega)
        (by
          intro j hj
          have := hok (j + 1) (by omega)
          rwa [show i + (j + 1) = i + 1 + j by omega] at this)
        (by rwa [show i + 1 + d = i + (d + 1) by omega])
    rw [hc_id] at ihrun
    refine ⟨tf, stf, ?_, ihstatus, ?_, ihcompl, ?_, ihsteps, ?_, ?_, ?_, ?_⟩
    · rw [hrun]
      exact ihrun
    · rw [iherr]
      exact ((applyStepUpdate_fields tb i _ none now).2.2.1).trans
        ((applyStepUpdate_fields ta i _ none now).2.2.1)
    · rw [ihcsi]
      congr 1
      omega
    · rw [ihlen2, hstc_len]
    · intro j hj
      rw [ihframe j (by omega), hstc, hstb,
        List.getElem?_set_ne (by omega), List.getElem?_set_ne (by omega)]
    · rwa [show i + (d + 1) = i + 1 + d by omega]
    · rwa [show i + (d + 1) = i + 1 + d by omega]

/-- Claim C5, amended (corrected): for a stored multi-step task whose steps
are all initially PENDING, when submission of step i fails (all earlier
steps having succeeded), the executor marks step i FAILED with the recorded
submit-failure error, marks the whole task FAILED with completedAt stamped
and currentStepIndex at the failing step - but leaves the task-level error
field unchanged rather than copying the failing step's error (see the
counterexample) - and every step after i keeps its initial PENDING record
untouched: no remaining step is attempted and the failed step is not
retried within the run. -/
theorem C5_submit_failure_stops_pipeline :
    ∀ (pre : Task) (st : List TaskStep) (ifail : Nat)
      (outcomes : Nat → TaskExecutor.StepOutcome) (now : Nat),
      pre.steps = some st →
      ifail < st.length →
      (∀ j, j < ifail → outcomes j = TaskExecutor.StepOutcome.ok) →
      outcomes ifail = TaskExecutor.StepOutcome.submitFail →
      (∀ (j : Nat) (s : TaskStep), st[j]? = some s → s.status = TaskStatus.PENDING) →
      ∃ (tf : Task) (stf : List TaskStep),
        TaskExecutor.executeMultiStep [pre] pre.id st.length outcomes now = [tf] ∧
        tf.status = TaskStatus.FAILED ∧
        tf.error = pre.error ∧
        tf.completedAt = some now ∧
        tf.currentStepIndex = some ifail ∧
        tf.steps = some stf ∧
        stf.length = st.length ∧
        stf[ifail]?.map TaskStep.status = some TaskStatus.FAILED ∧
        stf[ifail]?.bind TaskStep.error = some "提交失败" ∧
        (∀ j, ifail < j → stf[j]? = st[j]?) ∧
        (∀ j, ifail < j → j < st.length →
          stf[j]?.map TaskStep.status = some TaskStatus.PENDING) := by
  intro pre st ifail outcomes now hsteps hlen hok hfail hpending
  set p0 := applyUpdates pre
    { status := some TaskStatus.RUNNING, startedAt := some now,
      currentStepIndex := some 0 } with hp0
  have e0 : TaskStorage.updateTask [pre] pre.id
      { status := some TaskStatus.RUNNING, startedAt := some now,
        currentStepIndex := some 0 } = [p0] :=
    updateTask_singleton pre pre.id _ rfl
  have hp0_steps : p0.steps = some st := hsteps
  obtain ⟨tf, stf, hrun, hstatus, herr, hcompl, hcsi, hstf, hlen2, hframe, hfailst,
      hfailerr⟩ :=
    runSteps_submitFail_spec outcomes now ifail 0 st.length p0 st hp0_steps
      (by omega) hlen
      (by intro j hj; rw [Nat.zero_add]; exact hok j hj)
      (by rw [Nat.zero_add]; exact hfail)
  have hmulti : TaskExecutor.executeMultiStep [pre] pre.id st.length outcomes now = [tf] := by
    unfold TaskExecutor.executeMultiStep
    rw [e0]
    exact hrun
  refine ⟨tf, stf, hmulti, hstatus, herr, hcompl, ?_, hstf, hlen2, ?_, ?_, ?_, ?_⟩
  · rwa [Nat.zero_add] at hcsi
  · rwa [Nat.zero_add] at hfailst
  · rwa [Nat.zero_add] at hfailerr
  · intro j hj
    exact hframe j (by omega)
  · intro j hj hjlen
    rw [hframe j (by omega)]
    have hjget : ∃ s, st[j]? = some s :=
      ⟨st[j], List.getElem?_eq_getElem hjlen⟩
    obtain ⟨s, hs⟩ := hjget
    rw [hs, Option.map_some']
    rw [hpending j s hs]

/-- Witness for C5's amended theorem: a 3-step task whose second step fails
submission ends FAILED at currentStepIndex 1 with step 2 FAILED (error
recorded) and step 3 still PENDING. -/
theorem C5_submit_failure_stops_pipeline_witness :
    multiTask.steps = some threeSteps ∧
    (∃ (tf : Task) (stf : List TaskStep),
      TaskExecutor.executeMultiStep [multiTask] multiTask.id threeSteps.length
        failAtSecond 1000 = [tf] ∧
      tf.status = TaskStatus.FAILED ∧
      tf.error = multiTask.error ∧
      tf.completedAt = some 1000 ∧
      tf.currentStepIndex = some 1 ∧
      tf.steps = some stf ∧
      stf.length = threeSteps.length ∧
      stf[1]?.map TaskStep.status = some TaskStatus.FAILED ∧
      stf[1]?.bind TaskStep.error = some "提交失败" ∧
      (∀ j, 1 < j → stf[j]? = threeSteps[j]?) ∧
      (∀ j, 1 < j → j < threeSteps.length →
        stf[j]?.map TaskStep.status = some TaskStatus.PENDING)) :=
  ⟨rfl,
    C5_submit_failure_stops_pipeline multiTask threeSteps 1 failAtSecond 1000 rfl
      (by decide)
      (by intro j hj; interval_cases j; decide)
      (by decide)
      (by
        intro j s h
        match j with
        | 0 => exact (Option.some.injEq _ _ ▸ h : _) ▸ rfl
        | 1 => exact (Option.some.injEq _ _ ▸ h : _) ▸ rfl
        | 2 => exact (Option.some.injEq _ _ ▸ h : _) ▸ rfl
        | n + 3 => simp [threeSteps] at h)⟩

/-- Counterexample for C5 as stated: running the concrete 3-step task whose
second step fails submission leaves the whole task FAILED but with its
task-level error field still absent - the failing step's recorded error
"提交失败" is NOT copied to the task, contradicting the claim that the task
is marked Failed with the failing step's error. -/
theorem C5_counterexample :
    ((TaskExecutor.executeMultiStep [multiTask] "T" 3 failAtSecond 1000).map Task.status
      = [TaskStatus.FAILED]) ∧
    ((TaskExecutor.executeMultiStep [multiTask] "T" 3 failAtSecond 1000).map Task.error
      = [none]) ∧
    (((TaskExecutor.executeMultiStep [multiTask] "T" 3 failAtSecond 1000).map Task.steps).map
        (Option.map (List.map TaskStep.status))
      = [some [TaskStatus.COMPLETED, TaskStatus.FAILED, TaskStatus.PENDING]]) ∧
    (((TaskExecutor.executeMultiStep [multiTask] "T" 3 failAtSecond 1000).map Task.steps).map
        (Option.map (List.map TaskStep.error))
      = [some [none, some "提交失败", none]]) := by
  decide

end ATask
